import Mathlib

/-!
Verification of the phase-coordinator subsystem of the AI-Image-Hockey
repository (`firestore_listener.py`, `config.py`, `overlay_frames.py`,
`player_pipeline.py`) against its natural-language specification.

The shallow embedding models a Firestore document as an association list of
field names to field values.  Timestamps (Python `datetime` values, always
truthy in Python 3) are modelled as integer seconds since the epoch; the
one-entry `metrics` map written by the phases is modelled by its integer
value.  `gc_firestore.DELETE_FIELD` is modelled by the write-payload sentinel
`FVal.del`, which removes the key on a merge write, so that field *absence*
(as opposed to a stored null) is observable, exactly as in Firestore.

Each transactional block (`_try_claim_phase`'s `_txn`, `_phase_email`'s
`_txn`) is modelled as an atomic function on the document, and concurrency
as an arbitrary serialization of these atomic steps, which is the isolation
guarantee the code relies on.  External work (image pipeline, video
generation, SMTP send) is abstracted by an `Except` oracle passed to the
phase; the number of times a phase invokes its external work is recorded in
the result.
-/

/-- A Firestore field value: string, timestamp (integer seconds; Python
`datetime` values are always truthy), boolean, stored null, or the
`DELETE_FIELD` write sentinel (only meaningful inside write payloads). -/
inductive FVal where
  | s : String → FVal
  | i : Int → FVal
  | b : Bool → FVal
  | null : FVal
  | del : FVal
deriving DecidableEq

/-- A document: an association list from field names to values. -/
abbrev Doc := List (String × FVal)

/-- Raw field lookup (distinguishes absence from a stored null). -/
def dget : Doc → String → Option FVal
  | [], _ => none
  | (k', v) :: rest, k => if k' = k then some v else dget rest k

/-- Set (replace-or-append) a field. -/
def setKey : Doc → String → FVal → Doc
  | [], k, v => [(k, v)]
  | (k', v') :: rest, k, v => if k' = k then (k, v) :: rest else (k', v') :: setKey rest k v

/-- Remove a field entirely (the effect of writing `DELETE_FIELD`). -/
def delKey : Doc → String → Doc
  | [], _ => []
  | (k', v') :: rest, k => if k' = k then delKey rest k else (k', v') :: delKey rest k

/-- A `set(..., merge=True)` write: fields are applied left to right; a
`del` value removes the key, any other value upserts it. -/
def mergeSet (d : Doc) : List (String × FVal) → Doc
  | [] => d
  | (k, v) :: rest => mergeSet (if v = FVal.del then delKey d k else setKey d k v) rest

/-- What Python's `dict.get` sees: a stored null is returned as `None`,
i.e. collapsed with absence. -/
def pyVal : Option FVal → Option FVal
  | some FVal.null => none
  | some v => some v
  | none => none

/-- `data.get(k)` on the document dictionary. -/
def pyGet (d : Doc) (k : String) : Option FVal := pyVal (dget d k)

/-- `_get_field(data, *names)`: return the value of the first name that is
*present* in the dictionary (`if n in data`), even when its value is null. -/
def getFieldA (d : Doc) : List String → Option FVal
  | [] => none
  | n :: rest => if (dget d n).isSome then pyVal (dget d n) else getFieldA d rest

/-- Python truthiness of a field value. Integer values model `datetime`
objects, which are always truthy in Python 3. -/
def fvTruthy : FVal → Bool
  | FVal.s v => v ≠ ""
  | FVal.i _ => true
  | FVal.b v => v
  | FVal.null => false
  | FVal.del => false

/-- Python truthiness of an optional field value (`None` is falsy). -/
def truthy : Option FVal → Bool
  | none => false
  | some v => fvTruthy v

/-- Read a field as a timestamp (the schema stores timestamps or nothing). -/
def asTime : Option FVal → Option Int
  | some (FVal.i t) => some t
  | _ => none

/-- `LOCK_TTL_SECONDS` from `config.py` (default of the `LOCK_TTL_SECONDS`
environment variable): how long before another worker can steal a stuck
lock. -/
def LOCK_TTL_SECONDS : Int := 900

/-- `_freshness_timestamp`: whichever is newer of `lockAt` and
`heartbeatAt`, or whichever is present, or nothing. -/
def freshnessTimestamp (lockAt heartbeatAt : Option Int) : Option Int :=
  match lockAt, heartbeatAt with
  | some la, some hb => some (if hb > la then hb else la)
  | none, hb => hb
  | la, none => la

/-- `_is_lock_expired`: a missing freshness timestamp counts as expired;
otherwise the lease is expired when it is strictly older than the TTL. -/
def isLockExpired (now : Int) (lockAt heartbeatAt : Option Int) : Bool :=
  match freshnessTimestamp lockAt heartbeatAt with
  | none => true
  | some fresh => decide (now - fresh > LOCK_TTL_SECONDS)

/-- The field payload written by a successful claim transaction
(`SERVER_TIMESTAMP` resolves to the transaction time `now`). -/
def claimFields (w : String) (now : Int) (desired : String) : List (String × FVal) :=
  [("status", FVal.s desired), ("lockOwner", FVal.s w),
   ("lockAt", FVal.i now), ("heartbeatAt", FVal.i now)]

/-- `_try_claim_phase`: the transactional claim.  Returns the transaction's
boolean result and the (atomically updated) document. -/
def tryClaimPhase (w : String) (now : Int) (desired : String) (d : Doc) : Bool × Doc :=
  let status := pyGet d "status"
  let lockOwner := pyGet d "lockOwner"
  let lockAt := asTime (pyGet d "lockAt")
  let heartbeatAt := asTime (pyGet d "heartbeatAt")
  if status = some (FVal.s desired) then (false, d)
  else if truthy lockOwner ∧ lockOwner ≠ some (FVal.s w) ∧ ¬ isLockExpired now lockAt heartbeatAt
  then (false, d)
  else (true, mergeSet d (claimFields w now desired))

/-- `_release_lock`: a merge write deleting the three lock fields, updated
with any extra fields (later entries override earlier ones, as `dict.update`
does). -/
def releaseLock (d : Doc) (extra : List (String × FVal)) : Doc :=
  mergeSet d ([("lockOwner", FVal.del), ("lockAt", FVal.del), ("heartbeatAt", FVal.del)] ++ extra)

/-- The read projection `_read_state` builds (mirrors the `PlayerState`
dataclass).  `last_name` reproduces `data.get("lastName", "") or ""`. -/
structure PlayerState where
  selfie_url : Option FVal
  selfie_uploaded_at : Option FVal
  first_name : Option FVal
  last_name : FVal
  gender : Option FVal
  email : Option FVal
  hero_url : Option FVal
  card_url : Option FVal
  video_url : Option FVal
  status : Option FVal
  email_sent : Bool
  email_error : Bool
  email_sending : Bool
  lock_owner : Option FVal
  lock_at : Option FVal
  heartbeat_at : Option FVal
deriving DecidableEq

/-- `_read_state`, including the `selfieUrl`/`selfieURL` alias tolerance. -/
def readState (d : Doc) : PlayerState where
  selfie_url := getFieldA d ["selfieUrl", "selfieURL"]
  selfie_uploaded_at := pyGet d "selfieUploadedAt"
  first_name := pyGet d "firstName"
  last_name :=
    match pyGet d "lastName" with
    | some v => if fvTruthy v then v else FVal.s ""
    | none => FVal.s ""
  gender := pyGet d "gender"
  email := pyGet d "email"
  hero_url := pyGet d "heroURL"
  card_url := pyGet d "cardURL"
  video_url := pyGet d "videoURL"
  status := pyGet d "status"
  email_sent := truthy (pyGet d "emailSent")
  email_error := truthy (pyGet d "emailError")
  email_sending := truthy (pyGet d "emailSending")
  lock_owner := pyGet d "lockOwner"
  lock_at := pyGet d "lockAt"
  heartbeat_at := pyGet d "heartbeatAt"

/-- Observable outcome of one phase call: the resulting document, whether the
claim transaction was attempted and whether it returned true, how many times
the phase's external work was invoked, and whether the heartbeat was started,
stopped, and the lock released on the way out. -/
structure PhaseRes where
  doc : Doc
  claimAttempted : Bool
  claimed : Bool
  externalWorkRuns : Nat
  hbStarted : Bool
  hbStopped : Bool
  released : Bool
deriving DecidableEq

/-- A phase declining to run (guard precondition not met): nothing happens. -/
def skipRes (d : Doc) : PhaseRes :=
  ⟨d, false, false, 0, false, false, false⟩

/-- A phase whose claim transaction returned false: the claim was attempted
but nothing else happens (the transaction left the document unchanged). -/
def claimLostRes (d : Doc) : PhaseRes :=
  ⟨d, true, false, 0, false, false, false⟩

/-- The write `_phase_image` performs after its external work: the success
write (`heroURL`, `cardURL`, `image_done`, metrics) or the failure write
(`error_image`, message). -/
def imageWorkWrite (d₁ : Doc) (elapsedMs : Int) :
    Except String (String × String) → Doc
  | Except.ok (heroUrl, cardUrl) =>
    mergeSet d₁ [("heroURL", FVal.s heroUrl), ("cardURL", FVal.s cardUrl),
                 ("status", FVal.s "image_done"), ("metrics", FVal.i elapsedMs)]
  | Except.error msg =>
    mergeSet d₁ [("status", FVal.s "error_image"), ("errorMessage", FVal.s msg)]

/-- `_phase_image`.  The external work
(`run_player_pipeline_from_storage_url`) is abstracted by an oracle
returning either `(hero_url, card_url)` or an exception message.
`elapsedMs` stands for the measured duration stored in the one-entry
`metrics` map (modelled by its integer value). -/
def phaseImage (w : String) (now elapsedMs : Int)
    (work : Except String (String × String)) (d : Doc) : PhaseRes :=
  let st := readState d
  if truthy st.card_url then skipRes d
  else if !truthy st.selfie_uploaded_at || !truthy st.selfie_url
      || !truthy st.first_name || !truthy st.gender then skipRes d
  else
    match tryClaimPhase w now "processing_image" d with
    | (false, d₁) => claimLostRes d₁
    | (true, d₁) =>
      ⟨releaseLock (imageWorkWrite d₁ elapsedMs work) [], true, true, 1, true, true, true⟩

/-- The write `_phase_video` performs after its external work: the success
write (`videoURL`, `video_done`, metrics) or the failure writes (the
best-effort `videoRawURL` write when a raw clip was uploaded, then
`error_video` and the message). -/
def videoWorkWrite (d₁ : Doc) (elapsedMs : Int) :
    Except (String × Option String) String → Doc
  | Except.ok finalUrl =>
    mergeSet d₁ [("videoURL", FVal.s finalUrl),
                 ("status", FVal.s "video_done"), ("metrics", FVal.i elapsedMs)]
  | Except.error (msg, rawUrl) =>
    let dr :=
      match rawUrl with
      | some rawU => mergeSet d₁ [("videoRawURL", FVal.s rawU)]
      | none => d₁
    mergeSet dr [("status", FVal.s "error_video"), ("videoErrorMessage", FVal.s msg)]

/-- `_phase_video`.  The external work (download, retried Veo generation,
overlay, final upload) is abstracted by an oracle returning the final video
URL, or on failure a message together with the raw-video URL when the raw
clip existed and its best-effort upload succeeded (`none` covers both "no
raw clip yet" and "raw upload failed", which the code swallows). -/
def phaseVideo (w : String) (now elapsedMs : Int)
    (work : Except (String × Option String) String) (d : Doc) : PhaseRes :=
  let st := readState d
  if !truthy st.hero_url || truthy st.video_url then skipRes d
  else if st.status = some (FVal.s "error_video")
      ∨ st.status = some (FVal.s "processing_video") then skipRes d
  else
    match tryClaimPhase w now "processing_video" d with
    | (false, d₁) => claimLostRes d₁
    | (true, d₁) =>
      ⟨releaseLock (videoWorkWrite d₁ elapsedMs work) [], true, true, 1, true, true, true⟩

/-- The claim transaction inlined in `_phase_email` (guards on the
notification flags and the lock, then marks the item as sending). -/
def emailClaimTxn (w : String) (now : Int) (d : Doc) : Bool × Doc :=
  if truthy (pyGet d "emailSent") || truthy (pyGet d "emailError") then (false, d)
  else if truthy (pyGet d "emailSending") then (false, d)
  else
    let lockOwner := pyGet d "lockOwner"
    if truthy lockOwner ∧ lockOwner ≠ some (FVal.s w)
        ∧ ¬ isLockExpired now (asTime (pyGet d "lockAt")) (asTime (pyGet d "heartbeatAt"))
    then (false, d)
    else
      (true, mergeSet d [("emailSending", FVal.b true), ("status", FVal.s "processing_email"),
                         ("lockOwner", FVal.s w), ("lockAt", FVal.i now),
                         ("heartbeatAt", FVal.i now)])

/-- The write `_phase_email` performs after its external work: the success
write (`emailSent`, `done`) or the failure write (`emailError`,
`error_email`); both clear `emailSending` and set the two flags to opposite
values. -/
def emailWorkWrite (d₁ : Doc) (elapsedMs : Int) : Except String Unit → Doc
  | Except.ok _ =>
    mergeSet d₁ [("emailSent", FVal.b true), ("emailError", FVal.b false),
                 ("emailSending", FVal.b false), ("status", FVal.s "done"),
                 ("metrics", FVal.i elapsedMs)]
  | Except.error msg =>
    mergeSet d₁ [("emailSent", FVal.b false), ("emailError", FVal.b true),
                 ("emailSending", FVal.b false), ("emailErrorMessage", FVal.s msg),
                 ("status", FVal.s "error_email")]

/-- `_phase_email`.  The external work (retried SMTP send) is abstracted by
an oracle. -/
def phaseEmail (w : String) (now elapsedMs : Int)
    (work : Except String Unit) (d : Doc) : PhaseRes :=
  let st := readState d
  if !truthy st.email || !truthy st.card_url then skipRes d
  else if st.email_sent || st.email_error then skipRes d
  else
    match emailClaimTxn w now d with
    | (false, d₁) => claimLostRes d₁
    | (true, d₁) =>
      ⟨releaseLock (emailWorkWrite d₁ elapsedMs work) [], true, true, 1, true, true, true⟩

/-- Result of one `_process_doc` dispatch: the three phase outcomes (all
no-ops when the initial fresh-foreign-lock check made the dispatch return
early). -/
structure DispatchRes where
  image : PhaseRes
  video : PhaseRes
  email : PhaseRes
  skippedByLock : Bool
deriving DecidableEq

/-- The document after a dispatch (the email phase saw the latest state). -/
def DispatchRes.finalDoc (r : DispatchRes) : Doc := r.email.doc

/-- `_process_doc`: skip if a different worker holds a fresh lock, else run
the three phases in order, each one re-reading the then-current document. -/
def processDoc (w : String) (now elapsedMs : Int)
    (workImage : Except String (String × String))
    (workVideo : Except (String × Option String) String)
    (workEmail : Except String Unit) (d : Doc) : DispatchRes :=
  let st := readState d
  if truthy st.lock_owner ∧ st.lock_owner ≠ some (FVal.s w)
      ∧ ¬ isLockExpired now (asTime st.lock_at) (asTime st.heartbeat_at)
  then ⟨skipRes d, skipRes d, skipRes d, true⟩
  else
    let r₁ := phaseImage w now elapsedMs workImage d
    let r₂ := phaseVideo w now elapsedMs workVideo r₁.doc
    let r₃ := phaseEmail w now elapsedMs workEmail r₂.doc
    ⟨r₁, r₂, r₃, false⟩

/-- Serialization of concurrent `_try_claim_phase` transactions: the
document store executes them atomically in some order; each entry is the
claiming worker's id and the transaction's server time. -/
def runClaims (desired : String) : List (String × Int) → Doc → List Bool × Doc
  | [], d => ([], d)
  | (w, t) :: rest, d =>
    let r := tryClaimPhase w t desired d
    let rr := runClaims desired rest r.2
    (r.1 :: rr.1, rr.2)

/-- A sequence of dispatches of the email phase; returns the final document
and the total number of transport invocations. -/
def runEmailDispatches : List (String × Int × Int × Except String Unit) → Doc → Doc × Nat
  | [], d => (d, 0)
  | (w, t, ms, work) :: rest, d =>
    let r := phaseEmail w t ms work d
    let rr := runEmailDispatches rest r.doc
    (rr.1, r.externalWorkRuns + rr.2)

/-- `RETRY_DELAYS_SECONDS` from `firestore_listener.py` (3 retries). -/
def RETRY_DELAYS_SECONDS : List Nat := [2, 5, 12]

/-- Trace of a `_with_retries` execution: the final outcome, how many times
the wrapped call ran, and the sleeps performed before retries. -/
structure RetryTrace (E A : Type) where
  result : Except E A
  callsMade : Nat
  sleeps : List Nat

/-- The retry loop of `_with_retries` after the first attempt failed:
iterates the remaining attempt indices, sleeping
`RETRY_DELAYS_SECONDS[i-1]` before attempt `i`, remembering the last
exception. -/
def withRetriesGo {E A : Type} (fn : Nat → Except E A) :
    List Nat → E → Nat → List Nat → RetryTrace E A
  | [], lastErr, calls, sleeps => ⟨Except.error lastErr, calls, sleeps⟩
  | i :: rest, _, calls, sleeps =>
    let sleeps' := sleeps ++ [RETRY_DELAYS_SECONDS.getD (i - 1) 0]
    match fn i with
    | Except.ok a => ⟨Except.ok a, calls + 1, sleeps'⟩
    | Except.error e => withRetriesGo fn rest e (calls + 1) sleeps'

/-- `_with_retries`: `1 + len(RETRY_DELAYS_SECONDS)` total attempts; the
`i`-th attempt is abstracted as `fn i`. -/
def withRetries {E A : Type} (fn : Nat → Except E A) : RetryTrace E A :=
  match fn 0 with
  | Except.ok a => ⟨Except.ok a, 1, []⟩
  | Except.error e => withRetriesGo fn (List.range' 1 RETRY_DELAYS_SECONDS.length) e 1 []

/-- Position of a status value in the forward order of the state machine
(`none` status is the initial, unclaimed state); error and unknown statuses
are outside the order. -/
def statusRankF : Option FVal → Option Nat
  | none => some 0
  | some (FVal.s "processing_image") => some 1
  | some (FVal.s "image_done") => some 2
  | some (FVal.s "processing_video") => some 3
  | some (FVal.s "video_done") => some 4
  | some (FVal.s "processing_email") => some 5
  | some (FVal.s "done") => some 6
  | some _ => none

/-- One phase attempt by some worker at some time with some external-work
outcome (the granularity at which the forward-only property is stated). -/
inductive Step where
  | image (w : String) (t ms : Int) (work : Except String (String × String))
  | video (w : String) (t ms : Int) (work : Except (String × Option String) String)
  | email (w : String) (t ms : Int) (work : Except String Unit)

/-- Run one phase attempt. -/
def stepRun : Step → Doc → PhaseRes
  | Step.image w t ms work, d => phaseImage w t ms work d
  | Step.video w t ms work, d => phaseVideo w t ms work d
  | Step.email w t ms work, d => phaseEmail w t ms work d

/-- The document after one phase attempt. -/
def stepDoc (s : Step) (d : Doc) : Doc := (stepRun s d).doc

/-- Successful external work hands back non-empty artifact URLs (the blob
store returns public references). -/
def stepOutputsOk : Step → Prop
  | Step.image _ _ _ (Except.ok (h, c)) => h ≠ "" ∧ c ≠ ""
  | Step.video _ _ _ (Except.ok v) => v ≠ ""
  | _ => True

/-- The three lock fields are entirely absent. -/
def lockFree (d : Doc) : Prop :=
  dget d "lockOwner" = none ∧ dget d "lockAt" = none ∧ dget d "heartbeatAt" = none

/-- Neither notification flag is set. -/
def flagsClear (d : Doc) : Prop :=
  truthy (pyGet d "emailSent") = false ∧ truthy (pyGet d "emailError") = false

/-- Facts holding of every document between phase attempts: no lock held,
the notification flags mutually exclusive, no send marked in flight. -/
def baseInv (d : Doc) : Prop :=
  lockFree d
    ∧ ¬(truthy (pyGet d "emailSent") = true ∧ truthy (pyGet d "emailError") = true)
    ∧ truthy (pyGet d "emailSending") = false

/-- Initial state: nothing produced yet. -/
def stStart (d : Doc) : Prop :=
  pyGet d "status" = none ∧ truthy (pyGet d "cardURL") = false
    ∧ truthy (pyGet d "heroURL") = false ∧ truthy (pyGet d "videoURL") = false ∧ flagsClear d

/-- After a successful image phase. -/
def stImageDone (d : Doc) : Prop :=
  pyGet d "status" = some (FVal.s "image_done") ∧ truthy (pyGet d "cardURL") = true
    ∧ truthy (pyGet d "heroURL") = true ∧ truthy (pyGet d "videoURL") = false ∧ flagsClear d

/-- After a failed image phase. -/
def stErrorImage (d : Doc) : Prop :=
  pyGet d "status" = some (FVal.s "error_image") ∧ truthy (pyGet d "cardURL") = false
    ∧ truthy (pyGet d "heroURL") = false ∧ truthy (pyGet d "videoURL") = false ∧ flagsClear d

/-- After a successful video phase. -/
def stVideoDone (d : Doc) : Prop :=
  pyGet d "status" = some (FVal.s "video_done") ∧ truthy (pyGet d "cardURL") = true
    ∧ truthy (pyGet d "heroURL") = true ∧ truthy (pyGet d "videoURL") = true

/-- After a failed video phase. -/
def stErrorVideo (d : Doc) : Prop :=
  pyGet d "status" = some (FVal.s "error_video") ∧ truthy (pyGet d "cardURL") = true
    ∧ truthy (pyGet d "heroURL") = true ∧ truthy (pyGet d "videoURL") = false

/-- After a successful email phase. -/
def stDone (d : Doc) : Prop :=
  pyGet d "status" = some (FVal.s "done") ∧ truthy (pyGet d "cardURL") = true
    ∧ truthy (pyGet d "heroURL") = true ∧ truthy (pyGet d "emailSent") = true

/-- After a failed email phase. -/
def stErrorEmail (d : Doc) : Prop :=
  pyGet d "status" = some (FVal.s "error_email") ∧ truthy (pyGet d "cardURL") = true
    ∧ truthy (pyGet d "heroURL") = true ∧ truthy (pyGet d "emailError") = true

/-- Invariant of the documents reachable from a fresh work item by whole
phase attempts. -/
def ReachInv (d : Doc) : Prop :=
  baseInv d ∧ (stStart d ∨ stImageDone d ∨ stErrorImage d ∨ stVideoDone d
    ∨ stErrorVideo d ∨ stDone d ∨ stErrorEmail d)

instance (d : Doc) : Decidable (lockFree d) := by unfold lockFree; infer_instance

instance (d : Doc) : Decidable (flagsClear d) := by unfold flagsClear; infer_instance

instance (d : Doc) : Decidable (baseInv d) := by unfold baseInv; infer_instance

instance (d : Doc) : Decidable (stStart d) := by unfold stStart; infer_instance

instance (d : Doc) : Decidable (stImageDone d) := by unfold stImageDone; infer_instance

instance (d : Doc) : Decidable (stErrorImage d) := by unfold stErrorImage; infer_instance

instance (d : Doc) : Decidable (stVideoDone d) := by unfold stVideoDone; infer_instance

instance (d : Doc) : Decidable (stErrorVideo d) := by unfold stErrorVideo; infer_instance

instance (d : Doc) : Decidable (stDone d) := by unfold stDone; infer_instance

instance (d : Doc) : Decidable (stErrorEmail d) := by unfold stErrorEmail; infer_instance

instance (d : Doc) : Decidable (ReachInv d) := by unfold ReachInv; infer_instance

/-- Forward motion of the status under one step, up to the exceptions the
code actually exhibits: among in-order statuses the rank may only drop when
the item was `done` with no recorded video (the video phase re-claims it). -/
def rankStep (d d' : Doc) : Prop :=
  ∀ r r', statusRankF (pyGet d "status") = some r →
    statusRankF (pyGet d' "status") = some r' →
    r ≤ r' ∨ (pyGet d "status" = some (FVal.s "done") ∧ truthy (pyGet d "videoURL") = false)

/-- Formal parameter names of `run_player_pipeline_from_storage_url` as
defined in `player_pipeline.py` (all without defaults). -/
def runPlayerPipelineParams : List String := ["selfie_url", "gender", "total_score"]

/-- Keyword-argument names used at the call site inside `_phase_image`
(`firestore_listener.py`, lines 251-256). -/
def phaseImageCallKeywords : List String := ["selfie_url", "first_name", "last_name", "gender"]

/-- A Python keyword-only call binds exactly when every keyword names a
formal parameter and every formal parameter without a default receives a
keyword (otherwise the call raises `TypeError`). -/
def kwCallBinds (params kwargs withDefault : List String) : Bool :=
  kwargs.all (fun k => params.contains k)
    && params.all (fun p => withDefault.contains p || kwargs.contains p)

/-- `tier_from_score` from `overlay_frames.py`. -/
def tierFromScore (totalScore : Int) : String :=
  if totalScore ≥ 300 then "high"
  else if totalScore ≥ 150 then "mid"
  else "low"

/-- Every status string `firestore_listener.py` ever writes into the
`status` field. -/
def listenerStatusWrites : List String :=
  ["processing_image", "image_done", "error_image",
   "processing_video", "video_done", "error_video",
   "processing_email", "done", "error_email"]

/-- Example: a fresh work item with all intake inputs present. -/
def exFreshDoc : Doc :=
  [("selfieUrl", FVal.s "gs://selfies/1.jpg"), ("selfieUploadedAt", FVal.i 10),
   ("firstName", FVal.s "Ann"), ("lastName", FVal.s "Berg"),
   ("gender", FVal.s "female"), ("email", FVal.s "ann@example.com")]

/-- Example: an item whose status is already the desired claim target. -/
def exClaimedStatusDoc : Doc := [("status", FVal.s "processing_image")]

/-- Example: an item locked by worker `wA` with both lease timestamps. -/
def exForeignLockDoc : Doc :=
  [("status", FVal.s "image_done"), ("lockOwner", FVal.s "wA"),
   ("lockAt", FVal.i 100), ("heartbeatAt", FVal.i 200)]

/-- Example: an item with a lock owner but no lease timestamps at all. -/
def exNoStampLockDoc : Doc :=
  [("status", FVal.s "image_done"), ("lockOwner", FVal.s "wA")]

/-- Example: an attempt oracle that fails twice and then succeeds. -/
def exRetryFn : Nat → Except String Nat :=
  fun n => if n < 2 then Except.error "transient" else Except.ok 42

/-- Example: an item already in the claimable state for the claim race. -/
def exRaceDoc : Doc := [("status", FVal.s "image_done")]

/-- Example: an item whose image phase failed earlier (status `error_image`,
inputs still present, no card produced). -/
def exErrorImageDoc : Doc :=
  [("status", FVal.s "error_image"), ("selfieUrl", FVal.s "gs://selfies/2.jpg"),
   ("selfieUploadedAt", FVal.i 20), ("firstName", FVal.s "Al"), ("gender", FVal.s "male")]

/-- Example: an item whose video phase failed earlier. -/
def exErrorVideoDoc : Doc :=
  [("status", FVal.s "error_video"), ("heroURL", FVal.s "https://h"),
   ("cardURL", FVal.s "https://c"), ("email", FVal.s "al@example.com")]

/-- Example: an item whose notification failed earlier. -/
def exEmailFailedDoc : Doc :=
  [("status", FVal.s "error_email"), ("emailError", FVal.b true),
   ("cardURL", FVal.s "https://c"), ("email", FVal.s "al@example.com")]

/-- Example: an item whose notification already succeeded. -/
def exEmailSentDoc : Doc :=
  [("status", FVal.s "done"), ("emailSent", FVal.b true),
   ("cardURL", FVal.s "https://c"), ("email", FVal.s "al@example.com")]

/-- The document after one full dispatch of `exFreshDoc` in which the image
phase succeeds, the video phase fails after retries, and the notification
succeeds. -/
def exAfterDispatch1 : Doc :=
  (processDoc "wA" 100 3 (Except.ok ("https://h", "https://c"))
    (Except.error ("veo failed", none)) (Except.ok ()) exFreshDoc).finalDoc

/-- The document after a second dispatch of the same item in which the video
phase now succeeds. -/
def exAfterDispatch2 : Doc :=
  (processDoc "wB" 2000 3 (Except.ok ("https://h", "https://c"))
    (Except.ok "https://v") (Except.ok ()) exAfterDispatch1).finalDoc

@[simp]
theorem dget_setKey (d : Doc) (k k' : String) (v : FVal) :
    dget (setKey d k v) k' = if k' = k then some v else dget d k' := by
  induction d with
  | nil =>
    rcases eq_or_ne k' k with rfl | h
    · simp [setKey, dget]
    · simp [setKey, dget, h, Ne.symm h]
  | cons hd tl ih =>
    obtain ⟨k₀, v₀⟩ := hd
    rcases eq_or_ne k₀ k with rfl | h₀
    · rcases eq_or_ne k' k₀ with rfl | h
      · simp [setKey, dget]
      · simp [setKey, dget, h, Ne.symm h]
    · rcases eq_or_ne k₀ k' with rfl | h
      · simp [setKey, dget, h₀]
      · simp [setKey, dget, h₀, h, ih]

@[simp]
theorem dget_delKey (d : Doc) (k k' : String) :
    dget (delKey d k) k' = if k' = k then none else dget d k' := by
  induction d with
  | nil => simp [delKey, dget]
  | cons hd tl ih =>
    obtain ⟨k₀, v₀⟩ := hd
    rcases eq_or_ne k₀ k with rfl | h₀
    · rcases eq_or_ne k' k₀ with rfl | h
      · simp [delKey, dget, ih]
      · simp [delKey, dget, ih, h, Ne.symm h]
    · rcases eq_or_ne k₀ k' with rfl | h
      · simp [delKey, dget, h₀]
      · simp [delKey, dget, h₀, h, ih]


theorem isLockExpired_both (now la hb : Int) :
    isLockExpired now (some la) (some hb)
      = decide (now - max la hb > LOCK_TTL_SECONDS) := by
  by_cases hgt : hb > la
  · simp [isLockExpired, freshnessTimestamp, hgt, max_eq_right hgt.le]
  · simp [isLockExpired, freshnessTimestamp, hgt, max_eq_left (not_lt.mp hgt)]

/-- C2: if the stored status already equals the desired status, the claim
transaction returns false and leaves the record unchanged, and (for the
image phase) the dispatch never invokes the external work. -/
theorem c2_guard_blocks_duplicate_work (w desired : String) (now elapsedMs : Int)
    (work : Except String (String × String)) (d : Doc) :
    (pyGet d "status" = some (FVal.s desired) →
      tryClaimPhase w now desired d = (false, d))
    ∧ (pyGet d "status" = some (FVal.s "processing_image") →
      (phaseImage w now elapsedMs work d).doc = d
        ∧ (phaseImage w now elapsedMs work d).externalWorkRuns = 0
        ∧ (phaseImage w now elapsedMs work d).claimed = false) := by
  constructor
  · intro h
    simp [tryClaimPhase, h]
  · intro h
    have hclaim : tryClaimPhase w now "processing_image" d = (false, d) := by
      simp [tryClaimPhase, h]
    simp only [phaseImage]
    split
    · simp [skipRes]
    · split
      · simp [skipRes]
      · rw [hclaim]
        simp [claimLostRes]

/-- Witness for C2 at a concrete document. -/
theorem c2_guard_blocks_duplicate_work_witness :
    tryClaimPhase "wB" 7 "processing_image" exClaimedStatusDoc = (false, exClaimedStatusDoc)
      ∧ (phaseImage "wB" 7 3 (Except.ok ("h", "c")) exClaimedStatusDoc).externalWorkRuns = 0 := by
  have h := c2_guard_blocks_duplicate_work "wB" "processing_image" 7 3
    (Except.ok ("h", "c")) exClaimedStatusDoc
  exact ⟨h.1 (by decide), (h.2 (by decide)).2.1⟩

/-- C3: against a fresh foreign lease the claim fails, against a stale one it
succeeds: with both lease timestamps present the claim fails exactly when
`now - max(lockAt, heartbeatAt) ≤ LOCK_TTL_SECONDS`, whose default is 900
seconds. -/
theorem c3_freshness_rule (w desired : String) (now la hb : Int) (d : Doc)
    (hst : pyGet d "status" ≠ some (FVal.s desired))
    (hown : truthy (pyGet d "lockOwner") = true)
    (hne : pyGet d "lockOwner" ≠ some (FVal.s w))
    (hla : pyGet d "lockAt" = some (FVal.i la))
    (hhb : pyGet d "heartbeatAt" = some (FVal.i hb)) :
    ((tryClaimPhase w now desired d).1 = false ↔ now - max la hb ≤ LOCK_TTL_SECONDS)
      ∧ LOCK_TTL_SECONDS = 900 := by
  refine ⟨?_, rfl⟩
  simp only [tryClaimPhase, hla, hhb, asTime]
  rw [if_neg hst]
  by_cases hfresh : now - max la hb ≤ LOCK_TTL_SECONDS
  · have hexp : isLockExpired now (some la) (some hb) = false := by
      rw [isLockExpired_both]
      exact decide_eq_false (not_lt.mpr hfresh)
    rw [if_pos ⟨hown, hne, by simp [hexp]⟩]
    simpa using hfresh
  · have hexp : isLockExpired now (some la) (some hb) = true := by
      rw [isLockExpired_both]
      exact decide_eq_true (not_le.mp hfresh)
    rw [if_neg (by rintro ⟨-, -, hc⟩; rw [hexp] at hc; simp at hc)]
    simpa using hfresh

/-- Witness for C3 at a concrete stale lease (and, inside the same
statement, the theorem applied on the fresh side at an earlier `now`). -/
theorem c3_freshness_rule_witness :
    ((tryClaimPhase "wB" 2000 "processing_video" exForeignLockDoc).1 = false
      ↔ (2000 : Int) - max 100 200 ≤ LOCK_TTL_SECONDS)
    ∧ ((tryClaimPhase "wB" 900 "processing_video" exForeignLockDoc).1 = false
      ↔ (900 : Int) - max 100 200 ≤ LOCK_TTL_SECONDS) := by
  constructor
  · exact (c3_freshness_rule "wB" "processing_video" 2000 100 200 exForeignLockDoc
      (by decide) (by decide) (by decide) (by decide) (by decide)).1
  · exact (c3_freshness_rule "wB" "processing_video" 900 100 200 exForeignLockDoc
      (by decide) (by decide) (by decide) (by decide) (by decide)).1

/-- C10: a foreign lock with no timestamps at all counts as expired, so the
claim succeeds at once (when the status guard passes); the freshness
timestamp is whichever of the two timestamps is present, or their max. -/
theorem c10_absent_timestamps_expired (w desired : String) (now : Int) (d : Doc) :
    (pyGet d "status" ≠ some (FVal.s desired) →
      truthy (pyGet d "lockOwner") = true →
      pyGet d "lockOwner" ≠ some (FVal.s w) →
      dget d "lockAt" = none → dget d "heartbeatAt" = none →
      (tryClaimPhase w now desired d).1 = true)
    ∧ (∀ a : Int, freshnessTimestamp (some a) none = some a)
    ∧ (∀ b : Int, freshnessTimestamp none (some b) = some b)
    ∧ (∀ a b : Int, freshnessTimestamp (some a) (some b) = some (max a b))
    ∧ isLockExpired now none none = true := by
  refine ⟨?_, ?_, ?_, ?_, by simp [isLockExpired, freshnessTimestamp]⟩
  · intro hst hown hne hla hhb
    have h1 : pyGet d "lockAt" = none := by rw [pyGet, hla]; rfl
    have h2 : pyGet d "heartbeatAt" = none := by rw [pyGet, hhb]; rfl
    simp only [tryClaimPhase, h1, h2]
    rw [if_neg hst, if_neg ?_]
    rintro ⟨-, -, hc⟩
    exact hc (by simp [asTime, isLockExpired, freshnessTimestamp])
  · intro a
    simp [freshnessTimestamp]
  · intro b
    simp [freshnessTimestamp]
  · intro a b
    by_cases hgt : b > a
    · simp [freshnessTimestamp, hgt, max_eq_right hgt.le]
    · simp [freshnessTimestamp, hgt, max_eq_left (not_lt.mp hgt)]

/-- Witness for C10 at a concrete owner-only lock. -/
theorem c10_absent_timestamps_expired_witness :
    (tryClaimPhase "wB" 5 "processing_video" exNoStampLockDoc).1 = true := by
  exact (c10_absent_timestamps_expired "wB" "processing_video" 5 exNoStampLockDoc).1
    (by decide) (by decide) (by decide) (by decide) (by decide)

theorem retryIdxs : List.range' 1 RETRY_DELAYS_SECONDS.length = [1, 2, 3] := by
  decide

/-- C4: the retry executor makes at most 4 attempts, sleeping 2s, 5s, 12s
before the retries; it returns the first successful attempt's result without
further attempts, and when every attempt fails it re-raises the last
attempt's exception. -/
theorem c4_retry_executor {E A : Type} (fn : Nat → Except E A) :
    (withRetries fn).callsMade ≤ 4
    ∧ (withRetries fn).sleeps = RETRY_DELAYS_SECONDS.take ((withRetries fn).callsMade - 1)
    ∧ (∀ (k : Nat) (a : A), k < 4 → fn k = Except.ok a →
        (∀ i, i < k → (fn i).isOk = false) →
        (withRetries fn).result = Except.ok a ∧ (withRetries fn).callsMade = k + 1)
    ∧ (∀ e : E, (∀ i, i < 4 → (fn i).isOk = false) → fn 3 = Except.error e →
        (withRetries fn).result = Except.error e ∧ (withRetries fn).callsMade = 4) := by
  cases h0 : fn 0 with
  | ok a0 =>
    have hw : withRetries fn = ⟨Except.ok a0, 1, []⟩ := by
      simp [withRetries, h0]
    rw [hw]
    refine ⟨by norm_num, by simp [RETRY_DELAYS_SECONDS], ?_, ?_⟩
    · intro k a hk hak hprev
      rcases Nat.eq_zero_or_pos k with rfl | hpos
      · rw [h0] at hak
        cases hak
        exact ⟨rfl, rfl⟩
      · have hcon := hprev 0 hpos
        rw [h0] at hcon
        simp [Except.isOk, Except.toBool] at hcon
    · intro e hall h3
      have hcon := hall 0 (by norm_num)
      rw [h0] at hcon
      simp [Except.isOk, Except.toBool] at hcon
  | error e0 =>
    cases h1 : fn 1 with
    | ok a1 =>
      have hw : withRetries fn = ⟨Except.ok a1, 2, [2]⟩ := by
        simp [withRetries, h0, retryIdxs, withRetriesGo, h1, RETRY_DELAYS_SECONDS]
      rw [hw]
      refine ⟨by norm_num, by simp [RETRY_DELAYS_SECONDS], ?_, ?_⟩
      · intro k a hk hak hprev
        interval_cases k
        · rw [h0] at hak; cases hak
        · rw [h1] at hak; cases hak; exact ⟨rfl, rfl⟩
        · have hcon := hprev 1 (by norm_num); rw [h1] at hcon; simp [Except.isOk, Except.toBool] at hcon
        · have hcon := hprev 1 (by norm_num); rw [h1] at hcon; simp [Except.isOk, Except.toBool] at hcon
      · intro e hall h3
        have hcon := hall 1 (by norm_num)
        rw [h1] at hcon
        simp [Except.isOk, Except.toBool] at hcon
    | error e1 =>
      cases h2 : fn 2 with
      | ok a2 =>
        have hw : withRetries fn = ⟨Except.ok a2, 3, [2, 5]⟩ := by
          simp [withRetries, h0, retryIdxs, withRetriesGo, h1, h2, RETRY_DELAYS_SECONDS]
        rw [hw]
        refine ⟨by norm_num, by simp [RETRY_DELAYS_SECONDS], ?_, ?_⟩
        · intro k a hk hak hprev
          interval_cases k
          · rw [h0] at hak; cases hak
          · rw [h1] at hak; cases hak
          · rw [h2] at hak; cases hak; exact ⟨rfl, rfl⟩
          · have hcon := hprev 2 (by norm_num); rw [h2] at hcon; simp [Except.isOk, Except.toBool] at hcon
        · intro e hall h3
          have hcon := hall 2 (by norm_num)
          rw [h2] at hcon
          simp [Except.isOk, Except.toBool] at hcon
      | error e2 =>
        cases h3 : fn 3 with
        | ok a3 =>
          have hw : withRetries fn = ⟨Except.ok a3, 4, [2, 5, 12]⟩ := by
            simp [withRetries, h0, retryIdxs, withRetriesGo, h1, h2, h3, RETRY_DELAYS_SECONDS]
          rw [hw]
          refine ⟨by norm_num, by simp [RETRY_DELAYS_SECONDS], ?_, ?_⟩
          · intro k a hk hak hprev
            interval_cases k
            · rw [h0] at hak; cases hak
            · rw [h1] at hak; cases hak
            · rw [h2] at hak; cases hak
            · rw [h3] at hak; cases hak; exact ⟨rfl, rfl⟩
          · intro e hall h3'
            have hcon := hall 3 (by norm_num)
            rw [h3] at hcon
            simp [Except.isOk, Except.toBool] at hcon
        | error e3 =>
          have hw : withRetries fn = ⟨Except.error e3, 4, [2, 5, 12]⟩ := by
            simp [withRetries, h0, retryIdxs, withRetriesGo, h1, h2, h3, RETRY_DELAYS_SECONDS]
          rw [hw]
          refine ⟨by norm_num, by simp [RETRY_DELAYS_SECONDS], ?_, ?_⟩
          · intro k a hk hak hprev
            interval_cases k
            · rw [h0] at hak; cases hak
            · rw [h1] at hak; cases hak
            · rw [h2] at hak; cases hak
            · rw [h3] at hak; cases hak
          · intro e hall h3'
            injection h3' with he
            subst he
            exact ⟨rfl, rfl⟩

/-- Witness for C4: two transient failures, then success on the third
attempt; the executor returns the success after exactly 3 calls. -/
theorem c4_retry_executor_witness :
    (withRetries exRetryFn).result = Except.ok 42
      ∧ (withRetries exRetryFn).callsMade = 3 := by
  exact (c4_retry_executor exRetryFn).2.2.1 2 42 (by norm_num) rfl
    (by intro i hi; interval_cases i <;> rfl)

theorem tryClaimPhase_cases (w : String) (now : Int) (desired : String) (d : Doc) :
    tryClaimPhase w now desired d = (false, d)
    ∨ tryClaimPhase w now desired d = (true, mergeSet d (claimFields w now desired)) := by
  by_cases h1 : pyGet d "status" = some (FVal.s desired)
  · exact Or.inl (by simp only [tryClaimPhase]; rw [if_pos h1])
  · by_cases h2 : truthy (pyGet d "lockOwner") = true
        ∧ pyGet d "lockOwner" ≠ some (FVal.s w)
        ∧ ¬ isLockExpired now (asTime (pyGet d "lockAt")) (asTime (pyGet d "heartbeatAt")) = true
    · exact Or.inl (by simp only [tryClaimPhase]; rw [if_neg h1, if_pos h2])
    · exact Or.inr (by simp only [tryClaimPhase]; rw [if_neg h1, if_neg h2])

theorem emailClaimTxn_cases (w : String) (now : Int) (d : Doc) :
    emailClaimTxn w now d = (false, d)
    ∨ emailClaimTxn w now d
        = (true, mergeSet d [("emailSending", FVal.b true), ("status", FVal.s "processing_email"),
            ("lockOwner", FVal.s w), ("lockAt", FVal.i now), ("heartbeatAt", FVal.i now)]) := by
  by_cases h1 : (truthy (pyGet d "emailSent") || truthy (pyGet d "emailError")) = true
  · exact Or.inl (by simp only [emailClaimTxn]; rw [if_pos h1])
  · by_cases h2 : truthy (pyGet d "emailSending") = true
    · exact Or.inl (by simp only [emailClaimTxn]; rw [if_neg h1, if_pos h2])
    · by_cases h3 : truthy (pyGet d "lockOwner") = true
          ∧ pyGet d "lockOwner" ≠ some (FVal.s w)
          ∧ ¬ isLockExpired now (asTime (pyGet d "lockAt")) (asTime (pyGet d "heartbeatAt")) = true
      · exact Or.inl (by simp only [emailClaimTxn]; rw [if_neg h1, if_neg h2, if_pos h3])
      · exact Or.inr (by simp only [emailClaimTxn]; rw [if_neg h1, if_neg h2, if_neg h3])

theorem phaseImage_cases (w : String) (now ms : Int)
    (work : Except String (String × String)) (d : Doc) :
    phaseImage w now ms work d = skipRes d
    ∨ (∃ d₁, tryClaimPhase w now "processing_image" d = (false, d₁)
        ∧ phaseImage w now ms work d = claimLostRes d₁)
    ∨ (∃ d₁, tryClaimPhase w now "processing_image" d = (true, d₁)
        ∧ phaseImage w now ms work d
            = ⟨releaseLock (imageWorkWrite d₁ ms work) [], true, true, 1, true, true, true⟩) := by
  by_cases g1 : truthy (readState d).card_url = true
  · exact Or.inl (by simp only [phaseImage]; rw [if_pos g1])
  · by_cases g2 : (!truthy (readState d).selfie_uploaded_at || !truthy (readState d).selfie_url
        || !truthy (readState d).first_name || !truthy (readState d).gender) = true
    · exact Or.inl (by simp only [phaseImage]; rw [if_neg g1, if_pos g2])
    · rcases tryClaimPhase_cases w now "processing_image" d with hc | hc
      · refine Or.inr (Or.inl ⟨d, hc, ?_⟩)
        simp only [phaseImage]
        rw [if_neg g1, if_neg g2, hc]
      · refine Or.inr (Or.inr ⟨mergeSet d (claimFields w now "processing_image"), hc, ?_⟩)
        simp only [phaseImage]
        rw [if_neg g1, if_neg g2, hc]

theorem phaseVideo_cases (w : String) (now ms : Int)
    (work : Except (String × Option String) String) (d : Doc) :
    phaseVideo w now ms work d = skipRes d
    ∨ (∃ d₁, tryClaimPhase w now "processing_video" d = (false, d₁)
        ∧ phaseVideo w now ms work d = claimLostRes d₁)
    ∨ (∃ d₁, tryClaimPhase w now "processing_video" d = (true, d₁)
        ∧ phaseVideo w now ms work d
            = ⟨releaseLock (videoWorkWrite d₁ ms work) [], true, true, 1, true, true, true⟩) := by
  by_cases g1 : (!truthy (readState d).hero_url || truthy (readState d).video_url) = true
  · exact Or.inl (by simp only [phaseVideo]; rw [if_pos g1])
  · by_cases g2 : (readState d).status = some (FVal.s "error_video")
        ∨ (readState d).status = some (FVal.s "processing_video")
    · exact Or.inl (by simp only [phaseVideo]; rw [if_neg g1, if_pos g2])
    · rcases tryClaimPhase_cases w now "processing_video" d with hc | hc
      · refine Or.inr (Or.inl ⟨d, hc, ?_⟩)
        simp only [phaseVideo]
        rw [if_neg g1, if_neg g2, hc]
      · refine Or.inr (Or.inr ⟨mergeSet d (claimFields w now "processing_video"), hc, ?_⟩)
        simp only [phaseVideo]
        rw [if_neg g1, if_neg g2, hc]

theorem phaseEmail_cases (w : String) (now ms : Int)
    (work : Except String Unit) (d : Doc) :
    phaseEmail w now ms work d = skipRes d
    ∨ (∃ d₁, emailClaimTxn w now d = (false, d₁)
        ∧ phaseEmail w now ms work d = claimLostRes d₁)
    ∨ (∃ d₁, emailClaimTxn w now d = (true, d₁)
        ∧ phaseEmail w now ms work d
            = ⟨releaseLock (emailWorkWrite d₁ ms work) [], true, true, 1, true, true, true⟩) := by
  by_cases g1 : (!truthy (readState d).email || !truthy (readState d).card_url) = true
  · exact Or.inl (by simp only [phaseEmail]; rw [if_pos g1])
  · by_cases g2 : ((readState d).email_sent || (readState d).email_error) = true
    · exact Or.inl (by simp only [phaseEmail]; rw [if_neg g1, if_pos g2])
    · rcases emailClaimTxn_cases w now d with hc | hc
      · refine Or.inr (Or.inl ⟨d, hc, ?_⟩)
        simp only [phaseEmail]
        rw [if_neg g1, if_neg g2, hc]
      · refine Or.inr (Or.inr ⟨_, hc, ?_⟩)
        simp only [phaseEmail]
        rw [if_neg g1, if_neg g2, hc]

theorem lockFree_releaseLock (d : Doc) : lockFree (releaseLock d []) := by
  simp [lockFree, releaseLock, mergeSet]

theorem phaseImage_claimed (w : String) (now ms : Int)
    (work : Except String (String × String)) (d : Doc)
    (h : (phaseImage w now ms work d).claimed = true) :
    ∃ d₁, tryClaimPhase w now "processing_image" d = (true, d₁)
      ∧ phaseImage w now ms work d
          = ⟨releaseLock (imageWorkWrite d₁ ms work) [], true, true, 1, true, true, true⟩ := by
  rcases phaseImage_cases w now ms work d with hres | ⟨d₁, -, hres⟩ | ⟨d₁, hclaim, hres⟩
  · rw [hres] at h
    simp [skipRes] at h
  · rw [hres] at h
    simp [claimLostRes] at h
  · exact ⟨d₁, hclaim, hres⟩

theorem phaseVideo_claimed (w : String) (now ms : Int)
    (work : Except (String × Option String) String) (d : Doc)
    (h : (phaseVideo w now ms work d).claimed = true) :
    ∃ d₁, tryClaimPhase w now "processing_video" d = (true, d₁)
      ∧ phaseVideo w now ms work d
          = ⟨releaseLock (videoWorkWrite d₁ ms work) [], true, true, 1, true, true, true⟩ := by
  rcases phaseVideo_cases w now ms work d with hres | ⟨d₁, -, hres⟩ | ⟨d₁, hclaim, hres⟩
  · rw [hres] at h
    simp [skipRes] at h
  · rw [hres] at h
    simp [claimLostRes] at h
  · exact ⟨d₁, hclaim, hres⟩

theorem phaseEmail_claimed (w : String) (now ms : Int)
    (work : Except String Unit) (d : Doc)
    (h : (phaseEmail w now ms work d).claimed = true) :
    ∃ d₁, emailClaimTxn w now d = (true, d₁)
      ∧ phaseEmail w now ms work d
          = ⟨releaseLock (emailWorkWrite d₁ ms work) [], true, true, 1, true, true, true⟩ := by
  rcases phaseEmail_cases w now ms work d with hres | ⟨d₁, -, hres⟩ | ⟨d₁, hclaim, hres⟩
  · rw [hres] at h
    simp [skipRes] at h
  · rw [hres] at h
    simp [claimLostRes] at h
  · exact ⟨d₁, hclaim, hres⟩

/-- C5: whenever a phase's claim succeeded, the phase ends (on the success
exit and on the failure exit alike) with the heartbeat stopped, the release
performed, and all three lock fields *absent* from the record, not nulled. -/
theorem c5_release_always_clears (w : String) (now elapsedMs : Int)
    (workI : Except String (String × String))
    (workV : Except (String × Option String) String)
    (workE : Except String Unit) (d : Doc) :
    ((phaseImage w now elapsedMs workI d).claimed = true →
      lockFree (phaseImage w now elapsedMs workI d).doc
        ∧ (phaseImage w now elapsedMs workI d).hbStopped = true
        ∧ (phaseImage w now elapsedMs workI d).released = true)
    ∧ ((phaseVideo w now elapsedMs workV d).claimed = true →
      lockFree (phaseVideo w now elapsedMs workV d).doc
        ∧ (phaseVideo w now elapsedMs workV d).hbStopped = true
        ∧ (phaseVideo w now elapsedMs workV d).released = true)
    ∧ ((phaseEmail w now elapsedMs workE d).claimed = true →
      lockFree (phaseEmail w now elapsedMs workE d).doc
        ∧ (phaseEmail w now elapsedMs workE d).hbStopped = true
        ∧ (phaseEmail w now elapsedMs workE d).released = true) := by
  refine ⟨?_, ?_, ?_⟩
  · intro h
    obtain ⟨d₁, -, hres⟩ := phaseImage_claimed w now elapsedMs workI d h
    rw [hres]
    exact ⟨lockFree_releaseLock _, rfl, rfl⟩
  · intro h
    obtain ⟨d₁, -, hres⟩ := phaseVideo_claimed w now elapsedMs workV d h
    rw [hres]
    exact ⟨lockFree_releaseLock _, rfl, rfl⟩
  · intro h
    obtain ⟨d₁, -, hres⟩ := phaseEmail_claimed w now elapsedMs workE d h
    rw [hres]
    exact ⟨lockFree_releaseLock _, rfl, rfl⟩

/-- Witness for C5: a claimed image phase (on the failure exit) leaves the
lock fields absent. -/
theorem c5_release_always_clears_witness :
    (phaseImage "wA" 50 9 (Except.error "generation failed") exFreshDoc).claimed = true
      ∧ lockFree (phaseImage "wA" 50 9 (Except.error "generation failed") exFreshDoc).doc := by
  have h : (phaseImage "wA" 50 9 (Except.error "generation failed") exFreshDoc).claimed = true := by
    decide
  exact ⟨h, ((c5_release_always_clears "wA" 50 9 (Except.error "generation failed")
    (Except.ok "v") (Except.ok ()) exFreshDoc).1 h).1⟩

theorem phaseEmail_flag_blocked (w : String) (now ms : Int)
    (work : Except String Unit) (d : Doc)
    (h : truthy (pyGet d "emailSent") = true ∨ truthy (pyGet d "emailError") = true) :
    phaseEmail w now ms work d = skipRes d := by
  by_cases g1 : (!truthy (readState d).email || !truthy (readState d).card_url) = true
  · simp only [phaseEmail]
    rw [if_pos g1]
  · have g2 : ((readState d).email_sent || (readState d).email_error) = true := by
      simp only [readState]
      rcases h with h | h <;> simp [h]
    simp only [phaseEmail]
    rw [if_neg g1, if_pos g2]

/-- C7: the notification flags are mutually exclusive after any run of the
notification phase, and once either flag is set, any number of further
dispatches of the phase leaves the record unchanged and never invokes the
transport. -/
theorem c7_sticky_exclusive_notification (w : String) (now elapsedMs : Int)
    (work : Except String Unit) (d : Doc) :
    (¬(truthy (pyGet d "emailSent") = true ∧ truthy (pyGet d "emailError") = true) →
      ¬(truthy (pyGet (phaseEmail w now elapsedMs work d).doc "emailSent") = true
        ∧ truthy (pyGet (phaseEmail w now elapsedMs work d).doc "emailError") = true))
    ∧ (∀ calls : List (String × Int × Int × Except String Unit),
        truthy (pyGet d "emailSent") = true ∨ truthy (pyGet d "emailError") = true →
        runEmailDispatches calls d = (d, 0)) := by
  constructor
  · intro hpre
    rcases phaseEmail_cases w now elapsedMs work d with hres | ⟨d₁, htxn, hres⟩ | ⟨d₁, htxn, hres⟩
    · rw [hres]
      simpa [skipRes] using hpre
    · have hd : d₁ = d := by
        rcases emailClaimTxn_cases w now d with h' | h'
        · rw [h'] at htxn
          injection htxn with _ h''
          exact h''.symm
        · rw [h'] at htxn
          injection htxn with hb _
          cases hb
      rw [hres, hd]
      simpa [claimLostRes] using hpre
    · rw [hres]
      cases work with
      | ok u =>
        simp [emailWorkWrite, releaseLock, mergeSet, pyGet, pyVal, truthy, fvTruthy]
      | error msg =>
        simp [emailWorkWrite, releaseLock, mergeSet, pyGet, pyVal, truthy, fvTruthy]
  · intro calls h
    induction calls with
    | nil => rfl
    | cons head rest ih =>
      obtain ⟨w', t', ms', work'⟩ := head
      simp [runEmailDispatches, phaseEmail_flag_blocked w' t' ms' work' d h, skipRes, ih]

/-- Witness for C7: an item with `emailSent` set survives two further
notification dispatches untouched, with zero transport calls. -/
theorem c7_sticky_exclusive_notification_witness :
    runEmailDispatches [("wA", 10, 1, Except.ok ()), ("wB", 20, 1, Except.error "x")]
      exEmailSentDoc = (exEmailSentDoc, 0) := by
  exact (c7_sticky_exclusive_notification "wA" 10 1 (Except.ok ()) exEmailSentDoc).2
    [("wA", 10, 1, Except.ok ()), ("wB", 20, 1, Except.error "x")] (Or.inl (by decide))

theorem tryClaimPhase_status_eq (w : String) (now : Int) (desired : String) (d : Doc)
    (h : pyGet d "status" = some (FVal.s desired)) :
    tryClaimPhase w now desired d = (false, d) := by
  simp [tryClaimPhase, h]

theorem runClaims_status_blocked (desired : String) (claims : List (String × Int)) (d : Doc)
    (h : pyGet d "status" = some (FVal.s desired)) :
    runClaims desired claims d = (List.replicate claims.length false, d) := by
  induction claims with
  | nil => simp [runClaims]
  | cons c rest ih =>
    obtain ⟨w, t⟩ := c
    simp [runClaims, tryClaimPhase_status_eq w t desired d h, ih, List.replicate_succ]

theorem pyGet_after_claim (w : String) (now : Int) (desired : String) (d : Doc) :
    pyGet (mergeSet d (claimFields w now desired)) "status" = some (FVal.s desired) := by
  simp [claimFields, mergeSet, pyGet, pyVal]

/-- C1: serializing the claim transactions of any number of workers on an
item that is claimable (status not yet the desired one, no fresh foreign
lease at the first transaction's time) yields `true` for exactly the first
transaction the store executes and `false` for every other, so the phase is
entered exactly once. -/
theorem c1_exactly_one_claimant (desired w1 : String) (t1 : Int)
    (rest : List (String × Int)) (d : Doc)
    (hst : pyGet d "status" ≠ some (FVal.s desired))
    (hfree : truthy (pyGet d "lockOwner") = false
      ∨ isLockExpired t1 (asTime (pyGet d "lockAt")) (asTime (pyGet d "heartbeatAt")) = true) :
    (runClaims desired ((w1, t1) :: rest) d).1 = true :: List.replicate rest.length false
    ∧ (runClaims desired ((w1, t1) :: rest) d).1.count true = 1 := by
  have hclaim : tryClaimPhase w1 t1 desired d
      = (true, mergeSet d (claimFields w1 t1 desired)) := by
    rcases tryClaimPhase_cases w1 t1 desired d with hc | hc
    · exfalso
      simp only [tryClaimPhase] at hc
      rw [if_neg hst] at hc
      by_cases h2 : truthy (pyGet d "lockOwner") = true
          ∧ pyGet d "lockOwner" ≠ some (FVal.s w1)
          ∧ ¬ isLockExpired t1 (asTime (pyGet d "lockAt")) (asTime (pyGet d "heartbeatAt")) = true
      · rcases hfree with hf | hf
        · rw [hf] at h2
          simp at h2
        · exact h2.2.2 hf
      · rw [if_neg h2] at hc
        injection hc with hb _
        cases hb
    · exact hc
  have hrest := runClaims_status_blocked desired rest
    (mergeSet d (claimFields w1 t1 desired)) (pyGet_after_claim w1 t1 desired d)
  constructor
  · simp [runClaims, hclaim, hrest]
  · simp [runClaims, hclaim, hrest, List.count_cons, List.count_replicate]

/-- Witness for C1: three workers race an unlocked `image_done` item for the
video phase; only the first serialized transaction wins. -/
theorem c1_exactly_one_claimant_witness :
    (runClaims "processing_video" [("wA", 5), ("wB", 5), ("wC", 6)] exRaceDoc).1
      = [true, false, false] := by
  have h := (c1_exactly_one_claimant "processing_video" "wA" 5 [("wB", 5), ("wC", 6)]
    exRaceDoc (by decide) (Or.inl (by decide))).1
  simpa using h

/-- C6, amended: an `error_video` status makes the video phase decline
before attempting its claim, and a recorded notification failure (the
`emailError` flag, which the code writes together with `status =
"error_email"`) makes the email phase decline before attempting its claim;
in both cases the external work is not invoked (`skipRes` has
`claimAttempted = false` and `externalWorkRuns = 0`).  The image phase has
no such guard — see the counterexample. -/
theorem c6_error_status_blocks_video_and_email (w : String) (now elapsedMs : Int)
    (workV : Except (String × Option String) String)
    (workE : Except String Unit) (d : Doc) :
    (pyGet d "status" = some (FVal.s "error_video") →
      phaseVideo w now elapsedMs workV d = skipRes d)
    ∧ (truthy (pyGet d "emailError") = true →
      phaseEmail w now elapsedMs workE d = skipRes d) := by
  constructor
  · intro h
    by_cases g1 : (!truthy (readState d).hero_url || truthy (readState d).video_url) = true
    · simp only [phaseVideo]
      rw [if_pos g1]
    · have g2 : (readState d).status = some (FVal.s "error_video")
          ∨ (readState d).status = some (FVal.s "processing_video") := by
        left
        simpa [readState] using h
      simp only [phaseVideo]
      rw [if_neg g1, if_pos g2]
  · intro h
    exact phaseEmail_flag_blocked w now elapsedMs workE d (Or.inr h)

/-- Witness for the amended C6 at concrete error-state documents. -/
theorem c6_error_status_blocks_video_and_email_witness :
    phaseVideo "wB" 50 3 (Except.ok "https://v") exErrorVideoDoc = skipRes exErrorVideoDoc
    ∧ phaseEmail "wB" 50 3 (Except.ok ()) exEmailFailedDoc = skipRes exEmailFailedDoc := by
  exact ⟨(c6_error_status_blocks_video_and_email "wB" 50 3 (Except.ok "https://v")
      (Except.ok ()) exErrorVideoDoc).1 (by decide),
    (c6_error_status_blocks_video_and_email "wB" 50 3 (Except.ok "https://v")
      (Except.ok ()) exEmailFailedDoc).2 (by decide)⟩

/-- Counterexample to C6 as stated: dispatching an item whose status is
`error_image` (inputs present, no card produced by the failed phase)
attempts and wins the image claim and re-invokes the image phase's external
work. -/
theorem c6_error_image_retried_counterexample :
    pyGet exErrorImageDoc "status" = some (FVal.s "error_image")
    ∧ (processDoc "wB" 100 7 (Except.ok ("https://h2", "https://c2"))
        (Except.error ("v", none)) (Except.ok ()) exErrorImageDoc).image.claimAttempted = true
    ∧ (processDoc "wB" 100 7 (Except.ok ("https://h2", "https://c2"))
        (Except.error ("v", none)) (Except.ok ()) exErrorImageDoc).image.claimed = true
    ∧ (processDoc "wB" 100 7 (Except.ok ("https://h2", "https://c2"))
        (Except.error ("v", none)) (Except.ok ()) exErrorImageDoc).image.externalWorkRuns = 1 := by
  exact ⟨by decide, by decide, by decide, by decide⟩

/-- C9: the score hand-off the spec describes does not exist in the
dispatcher.  The listener never writes (or handles) an `awaiting_score` or
`processing_overlay` status, and its call into the player pipeline does not
bind against the pipeline's actual signature: the call passes `first_name`
and `last_name` keywords that are not formal parameters and omits the
required `total_score`, so it raises `TypeError` instead of passing any
(defaulted) score; a score of 0 would select the "low" frame tier. -/
theorem c9_score_pathway_broken :
    kwCallBinds runPlayerPipelineParams phaseImageCallKeywords [] = false
    ∧ listenerStatusWrites.contains "awaiting_score" = false
    ∧ listenerStatusWrites.contains "processing_overlay" = false
    ∧ tierFromScore 0 = "low" := by
  exact ⟨by decide, by decide, by decide, by decide⟩

theorem rankStep_refl (d : Doc) : rankStep d d := by
  intro r r' h1 h2
  rw [h1] at h2
  injection h2 with e
  exact Or.inl (by omega)

theorem rankStep_of_ranks (d d' : Doc) (r1 r2 : Nat)
    (h1 : statusRankF (pyGet d "status") = some r1)
    (h2 : statusRankF (pyGet d' "status") = some r2) (hle : r1 ≤ r2) :
    rankStep d d' := by
  intro r r' hr hr'
  rw [h1] at hr
  rw [h2] at hr'
  injection hr with e1
  injection hr' with e2
  subst e1
  subst e2
  exact Or.inl hle

theorem rankStep_of_left_none (d d' : Doc)
    (h : statusRankF (pyGet d "status") = none) : rankStep d d' := by
  intro r r' hr hr'
  rw [h] at hr
  cases hr

theorem rankStep_of_right_none (d d' : Doc)
    (h : statusRankF (pyGet d' "status") = none) : rankStep d d' := by
  intro r r' hr hr'
  rw [h] at hr'
  cases hr'

theorem rankStep_done_exception (d d' : Doc)
    (h1 : pyGet d "status" = some (FVal.s "done"))
    (h2 : truthy (pyGet d "videoURL") = false) : rankStep d d' := by
  intro r r' hr hr'
  exact Or.inr ⟨h1, h2⟩

theorem tryClaim_false_doc {w : String} {now : Int} {desired : String} {d d₁ : Doc}
    (h : tryClaimPhase w now desired d = (false, d₁)) : d₁ = d := by
  rcases tryClaimPhase_cases w now desired d with h' | h'
  · rw [h'] at h
    injection h with _ h2
    exact h2.symm
  · rw [h'] at h
    injection h with hb _
    cases hb

theorem emailTxn_false_doc {w : String} {now : Int} {d d₁ : Doc}
    (h : emailClaimTxn w now d = (false, d₁)) : d₁ = d := by
  rcases emailClaimTxn_cases w now d with h' | h'
  · rw [h'] at h
    injection h with _ h2
    exact h2.symm
  · rw [h'] at h
    injection h with hb _
    cases hb

theorem truthy_s_of_ne {v : String} (h : v ≠ "") :
    truthy (some (FVal.s v)) = true := by
  simp [truthy, fvTruthy, h]

theorem imageOk_fields (d : Doc) (w : String) (now ms : Int) (hu cu : String) :
    pyGet (releaseLock (imageWorkWrite (mergeSet d (claimFields w now "processing_image")) ms
        (Except.ok (hu, cu))) []) "status" = some (FVal.s "image_done")
    ∧ pyGet (releaseLock (imageWorkWrite (mergeSet d (claimFields w now "processing_image")) ms
        (Except.ok (hu, cu))) []) "heroURL" = some (FVal.s hu)
    ∧ pyGet (releaseLock (imageWorkWrite (mergeSet d (claimFields w now "processing_image")) ms
        (Except.ok (hu, cu))) []) "cardURL" = some (FVal.s cu)
    ∧ pyGet (releaseLock (imageWorkWrite (mergeSet d (claimFields w now "processing_image")) ms
        (Except.ok (hu, cu))) []) "videoURL" = pyGet d "videoURL"
    ∧ pyGet (releaseLock (imageWorkWrite (mergeSet d (claimFields w now "processing_image")) ms
        (Except.ok (hu, cu))) []) "emailSent" = pyGet d "emailSent"
    ∧ pyGet (releaseLock (imageWorkWrite (mergeSet d (claimFields w now "processing_image")) ms
        (Except.ok (hu, cu))) []) "emailError" = pyGet d "emailError"
    ∧ pyGet (releaseLock (imageWorkWrite (mergeSet d (claimFields w now "processing_image")) ms
        (Except.ok (hu, cu))) []) "emailSending" = pyGet d "emailSending" := by
  refine ⟨?_, ?_, ?_, ?_, ?_, ?_, ?_⟩ <;>
    simp [releaseLock, imageWorkWrite, mergeSet, claimFields, pyGet, pyVal]

theorem imageErr_fields (d : Doc) (w : String) (now ms : Int) (msg : String) :
    pyGet (releaseLock (imageWorkWrite (mergeSet d (claimFields w now "processing_image")) ms
        (Except.error msg)) []) "status" = some (FVal.s "error_image")
    ∧ pyGet (releaseLock (imageWorkWrite (mergeSet d (claimFields w now "processing_image")) ms
        (Except.error msg)) []) "heroURL" = pyGet d "heroURL"
    ∧ pyGet (releaseLock (imageWorkWrite (mergeSet d (claimFields w now "processing_image")) ms
        (Except.error msg)) []) "cardURL" = pyGet d "cardURL"
    ∧ pyGet (releaseLock (imageWorkWrite (mergeSet d (claimFields w now "processing_image")) ms
        (Except.error msg)) []) "videoURL" = pyGet d "videoURL"
    ∧ pyGet (releaseLock (imageWorkWrite (mergeSet d (claimFields w now "processing_image")) ms
        (Except.error msg)) []) "emailSent" = pyGet d "emailSent"
    ∧ pyGet (releaseLock (imageWorkWrite (mergeSet d (claimFields w now "processing_image")) ms
        (Except.error msg)) []) "emailError" = pyGet d "emailError"
    ∧ pyGet (releaseLock (imageWorkWrite (mergeSet d (claimFields w now "processing_image")) ms
        (Except.error msg)) []) "emailSending" = pyGet d "emailSending" := by
  refine ⟨?_, ?_, ?_, ?_, ?_, ?_, ?_⟩ <;>
    simp [releaseLock, imageWorkWrite, mergeSet, claimFields, pyGet, pyVal]

theorem videoOk_fields (d : Doc) (w : String) (now ms : Int) (vu : String) :
    pyGet (releaseLock (videoWorkWrite (mergeSet d (claimFields w now "processing_video")) ms
        (Except.ok vu)) []) "status" = some (FVal.s "video_done")
    ∧ pyGet (releaseLock (videoWorkWrite (mergeSet d (claimFields w now "processing_video")) ms
        (Except.ok vu)) []) "videoURL" = some (FVal.s vu)
    ∧ pyGet (releaseLock (videoWorkWrite (mergeSet d (claimFields w now "processing_video")) ms
        (Except.ok vu)) []) "cardURL" = pyGet d "cardURL"
    ∧ pyGet (releaseLock (videoWorkWrite (mergeSet d (claimFields w now "processing_video")) ms
        (Except.ok vu)) []) "heroURL" = pyGet d "heroURL"
    ∧ pyGet (releaseLock (videoWorkWrite (mergeSet d (claimFields w now "processing_video")) ms
        (Except.ok vu)) []) "emailSent" = pyGet d "emailSent"
    ∧ pyGet (releaseLock (videoWorkWrite (mergeSet d (claimFields w now "processing_video")) ms
        (Except.ok vu)) []) "emailError" = pyGet d "emailError"
    ∧ pyGet (releaseLock (videoWorkWrite (mergeSet d (claimFields w now "processing_video")) ms
        (Except.ok vu)) []) "emailSending" = pyGet d "emailSending" := by
  refine ⟨?_, ?_, ?_, ?_, ?_, ?_, ?_⟩ <;>
    simp [releaseLock, videoWorkWrite, mergeSet, claimFields, pyGet, pyVal]

theorem videoErr_fields (d : Doc) (w : String) (now ms : Int) (msg : String)
    (rawUrl : Option String) :
    pyGet (releaseLock (videoWorkWrite (mergeSet d (claimFields w now "processing_video")) ms
        (Except.error (msg, rawUrl))) []) "status" = some (FVal.s "error_video")
    ∧ pyGet (releaseLock (videoWorkWrite (mergeSet d (claimFields w now "processing_video")) ms
        (Except.error (msg, rawUrl))) []) "videoURL" = pyGet d "videoURL"
    ∧ pyGet (releaseLock (videoWorkWrite (mergeSet d (claimFields w now "processing_video")) ms
        (Except.error (msg, rawUrl))) []) "cardURL" = pyGet d "cardURL"
    ∧ pyGet (releaseLock (videoWorkWrite (mergeSet d (claimFields w now "processing_video")) ms
        (Except.error (msg, rawUrl))) []) "heroURL" = pyGet d "heroURL"
    ∧ pyGet (releaseLock (videoWorkWrite (mergeSet d (claimFields w now "processing_video")) ms
        (Except.error (msg, rawUrl))) []) "emailSent" = pyGet d "emailSent"
    ∧ pyGet (releaseLock (videoWorkWrite (mergeSet d (claimFields w now "processing_video")) ms
        (Except.error (msg, rawUrl))) []) "emailError" = pyGet d "emailError"
    ∧ pyGet (releaseLock (videoWorkWrite (mergeSet d (claimFields w now "processing_video")) ms
        (Except.error (msg, rawUrl))) []) "emailSending" = pyGet d "emailSending" := by
  cases rawUrl <;>
    exact ⟨by simp [releaseLock, videoWorkWrite, mergeSet, claimFields, pyGet, pyVal],
      by simp [releaseLock, videoWorkWrite, mergeSet, claimFields, pyGet, pyVal],
      by simp [releaseLock, videoWorkWrite, mergeSet, claimFields, pyGet, pyVal],
      by simp [releaseLock, videoWorkWrite, mergeSet, claimFields, pyGet, pyVal],
      by simp [releaseLock, videoWorkWrite, mergeSet, claimFields, pyGet, pyVal],
      by simp [releaseLock, videoWorkWrite, mergeSet, claimFields, pyGet, pyVal],
      by simp [releaseLock, videoWorkWrite, mergeSet, claimFields, pyGet, pyVal]⟩

theorem emailOk_fields (d : Doc) (w : String) (now ms : Int) :
    pyGet (releaseLock (emailWorkWrite (mergeSet d [("emailSending", FVal.b true),
        ("status", FVal.s "processing_email"), ("lockOwner", FVal.s w), ("lockAt", FVal.i now),
        ("heartbeatAt", FVal.i now)]) ms (Except.ok ())) []) "status" = some (FVal.s "done")
    ∧ pyGet (releaseLock (emailWorkWrite (mergeSet d [("emailSending", FVal.b true),
        ("status", FVal.s "processing_email"), ("lockOwner", FVal.s w), ("lockAt", FVal.i now),
        ("heartbeatAt", FVal.i now)]) ms (Except.ok ())) []) "emailSent" = some (FVal.b true)
    ∧ pyGet (releaseLock (emailWorkWrite (mergeSet d [("emailSending", FVal.b true),
        ("status", FVal.s "processing_email"), ("lockOwner", FVal.s w), ("lockAt", FVal.i now),
        ("heartbeatAt", FVal.i now)]) ms (Except.ok ())) []) "emailError" = some (FVal.b false)
    ∧ pyGet (releaseLock (emailWorkWrite (mergeSet d [("emailSending", FVal.b true),
        ("status", FVal.s "processing_email"), ("lockOwner", FVal.s w), ("lockAt", FVal.i now),
        ("heartbeatAt", FVal.i now)]) ms (Except.ok ())) []) "emailSending" = some (FVal.b false)
    ∧ pyGet (releaseLock (emailWorkWrite (mergeSet d [("emailSending", FVal.b true),
        ("status", FVal.s "processing_email"), ("lockOwner", FVal.s w), ("lockAt", FVal.i now),
        ("heartbeatAt", FVal.i now)]) ms (Except.ok ())) []) "cardURL" = pyGet d "cardURL"
    ∧ pyGet (releaseLock (emailWorkWrite (mergeSet d [("emailSending", FVal.b true),
        ("status", FVal.s "processing_email"), ("lockOwner", FVal.s w), ("lockAt", FVal.i now),
        ("heartbeatAt", FVal.i now)]) ms (Except.ok ())) []) "heroURL" = pyGet d "heroURL"
    ∧ pyGet (releaseLock (emailWorkWrite (mergeSet d [("emailSending", FVal.b true),
        ("status", FVal.s "processing_email"), ("lockOwner", FVal.s w), ("lockAt", FVal.i now),
        ("heartbeatAt", FVal.i now)]) ms (Except.ok ())) []) "videoURL" = pyGet d "videoURL" := by
  refine ⟨?_, ?_, ?_, ?_, ?_, ?_, ?_⟩ <;>
    simp [releaseLock, emailWorkWrite, mergeSet, pyGet, pyVal]

theorem emailErr_fields (d : Doc) (w : String) (now ms : Int) (msg : String) :
    pyGet (releaseLock (emailWorkWrite (mergeSet d [("emailSending", FVal.b true),
        ("status", FVal.s "processing_email"), ("lockOwner", FVal.s w), ("lockAt", FVal.i now),
        ("heartbeatAt", FVal.i now)]) ms (Except.error msg)) []) "status"
        = some (FVal.s "error_email")
    ∧ pyGet (releaseLock (emailWorkWrite (mergeSet d [("emailSending", FVal.b true),
        ("status", FVal.s "processing_email"), ("lockOwner", FVal.s w), ("lockAt", FVal.i now),
        ("heartbeatAt", FVal.i now)]) ms (Except.error msg)) []) "emailSent" = some (FVal.b false)
    ∧ pyGet (releaseLock (emailWorkWrite (mergeSet d [("emailSending", FVal.b true),
        ("status", FVal.s "processing_email"), ("lockOwner", FVal.s w), ("lockAt", FVal.i now),
        ("heartbeatAt", FVal.i now)]) ms (Except.error msg)) []) "emailError" = some (FVal.b true)
    ∧ pyGet (releaseLock (emailWorkWrite (mergeSet d [("emailSending", FVal.b true),
        ("status", FVal.s "processing_email"), ("lockOwner", FVal.s w), ("lockAt", FVal.i now),
        ("heartbeatAt", FVal.i now)]) ms (Except.error msg)) []) "emailSending"
        = some (FVal.b false)
    ∧ pyGet (releaseLock (emailWorkWrite (mergeSet d [("emailSending", FVal.b true),
        ("status", FVal.s "processing_email"), ("lockOwner", FVal.s w), ("lockAt", FVal.i now),
        ("heartbeatAt", FVal.i now)]) ms (Except.error msg)) []) "cardURL" = pyGet d "cardURL"
    ∧ pyGet (releaseLock (emailWorkWrite (mergeSet d [("emailSending", FVal.b true),
        ("status", FVal.s "processing_email"), ("lockOwner", FVal.s w), ("lockAt", FVal.i now),
        ("heartbeatAt", FVal.i now)]) ms (Except.error msg)) []) "heroURL" = pyGet d "heroURL"
    ∧ pyGet (releaseLock (emailWorkWrite (mergeSet d [("emailSending", FVal.b true),
        ("status", FVal.s "processing_email"), ("lockOwner", FVal.s w), ("lockAt", FVal.i now),
        ("heartbeatAt", FVal.i now)]) ms (Except.error msg)) []) "videoURL"
        = pyGet d "videoURL" := by
  refine ⟨?_, ?_, ?_, ?_, ?_, ?_, ?_⟩ <;>
    simp [releaseLock, emailWorkWrite, mergeSet, pyGet, pyVal]

theorem phaseImage_claimed_guards (w : String) (now ms : Int)
    (work : Except String (String × String)) (d : Doc)
    (h : (phaseImage w now ms work d).claimed = true) :
    truthy (pyGet d "cardURL") = false
    ∧ phaseImage w now ms work d
        = ⟨releaseLock (imageWorkWrite (mergeSet d (claimFields w now "processing_image")) ms
            work) [], true, true, 1, true, true, true⟩ := by
  by_cases g1 : truthy (readState d).card_url = true
  · exfalso
    have hres : phaseImage w now ms work d = skipRes d := by
      simp only [phaseImage]
      rw [if_pos g1]
    rw [hres] at h
    simp [skipRes] at h
  · by_cases g2 : (!truthy (readState d).selfie_uploaded_at || !truthy (readState d).selfie_url
        || !truthy (readState d).first_name || !truthy (readState d).gender) = true
    · exfalso
      have hres : phaseImage w now ms work d = skipRes d := by
        simp only [phaseImage]
        rw [if_neg g1, if_pos g2]
      rw [hres] at h
      simp [skipRes] at h
    · rcases tryClaimPhase_cases w now "processing_image" d with hc | hc
      · exfalso
        have hres : phaseImage w now ms work d = claimLostRes d := by
          simp only [phaseImage]
          rw [if_neg g1, if_neg g2, hc]
        rw [hres] at h
        simp [claimLostRes] at h
      · refine ⟨?_, ?_⟩
        · have := eq_false_of_ne_true g1
          simpa [readState] using this
        · simp only [phaseImage]
          rw [if_neg g1, if_neg g2, hc]

theorem phaseVideo_claimed_guards (w : String) (now ms : Int)
    (work : Except (String × Option String) String) (d : Doc)
    (h : (phaseVideo w now ms work d).claimed = true) :
    truthy (pyGet d "heroURL") = true
    ∧ truthy (pyGet d "videoURL") = false
    ∧ ¬(pyGet d "status" = some (FVal.s "error_video")
        ∨ pyGet d "status" = some (FVal.s "processing_video"))
    ∧ phaseVideo w now ms work d
        = ⟨releaseLock (videoWorkWrite (mergeSet d (claimFields w now "processing_video")) ms
            work) [], true, true, 1, true, true, true⟩ := by
  by_cases g1 : (!truthy (readState d).hero_url || truthy (readState d).video_url) = true
  · exfalso
    have hres : phaseVideo w now ms work d = skipRes d := by
      simp only [phaseVideo]
      rw [if_pos g1]
    rw [hres] at h
    simp [skipRes] at h
  · by_cases g2 : (readState d).status = some (FVal.s "error_video")
        ∨ (readState d).status = some (FVal.s "processing_video")
    · exfalso
      have hres : phaseVideo w now ms work d = skipRes d := by
        simp only [phaseVideo]
        rw [if_neg g1, if_pos g2]
      rw [hres] at h
      simp [skipRes] at h
    · rcases tryClaimPhase_cases w now "processing_video" d with hc | hc
      · exfalso
        have hres : phaseVideo w now ms work d = claimLostRes d := by
          simp only [phaseVideo]
          rw [if_neg g1, if_neg g2, hc]
        rw [hres] at h
        simp [claimLostRes] at h
      · have hg1 := eq_false_of_ne_true g1
        refine ⟨?_, ?_, ?_, ?_⟩
        · have := (Bool.or_eq_false_iff.mp hg1).1
          simpa [readState] using this
        · have := (Bool.or_eq_false_iff.mp hg1).2
          simpa [readState] using this
        · simpa [readState] using g2
        · simp only [phaseVideo]
          rw [if_neg g1, if_neg g2, hc]

theorem phaseEmail_claimed_guards (w : String) (now ms : Int)
    (work : Except String Unit) (d : Doc)
    (h : (phaseEmail w now ms work d).claimed = true) :
    truthy (pyGet d "email") = true
    ∧ truthy (pyGet d "cardURL") = true
    ∧ truthy (pyGet d "emailSent") = false
    ∧ truthy (pyGet d "emailError") = false
    ∧ phaseEmail w now ms work d
        = ⟨releaseLock (emailWorkWrite (mergeSet d [("emailSending", FVal.b true),
            ("status", FVal.s "processing_email"), ("lockOwner", FVal.s w),
            ("lockAt", FVal.i now), ("heartbeatAt", FVal.i now)]) ms work) [],
           true, true, 1, true, true, true⟩ := by
  by_cases g1 : (!truthy (readState d).email || !truthy (readState d).card_url) = true
  · exfalso
    have hres : phaseEmail w now ms work d = skipRes d := by
      simp only [phaseEmail]
      rw [if_pos g1]
    rw [hres] at h
    simp [skipRes] at h
  · by_cases g2 : ((readState d).email_sent || (readState d).email_error) = true
    · exfalso
      have hres : phaseEmail w now ms work d = skipRes d := by
        simp only [phaseEmail]
        rw [if_neg g1, if_pos g2]
      rw [hres] at h
      simp [skipRes] at h
    · rcases emailClaimTxn_cases w now d with hc | hc
      · exfalso
        have hres : phaseEmail w now ms work d = claimLostRes d := by
          simp only [phaseEmail]
          rw [if_neg g1, if_neg g2, hc]
        rw [hres] at h
        simp [claimLostRes] at h
      · have hg1 := eq_false_of_ne_true g1
        have hg2 := eq_false_of_ne_true g2
        refine ⟨?_, ?_, ?_, ?_, ?_⟩
        · have := (Bool.or_eq_false_iff.mp hg1).1
          simpa [readState] using this
        · have := (Bool.or_eq_false_iff.mp hg1).2
          simpa [readState] using this
        · have := (Bool.or_eq_false_iff.mp hg2).1
          simpa [readState] using this
        · have := (Bool.or_eq_false_iff.mp hg2).2
          simpa [readState] using this
        · simp only [phaseEmail]
          rw [if_neg g1, if_neg g2, hc]

theorem image_step_reach (w : String) (now ms : Int)
    (work : Except String (String × String)) (d : Doc)
    (hinv : ReachInv d)
    (hok : ∀ hu cu, work = Except.ok (hu, cu) → hu ≠ "" ∧ cu ≠ "") :
    ReachInv (phaseImage w now ms work d).doc
      ∧ rankStep d (phaseImage w now ms work d).doc := by
  by_cases hcl : (phaseImage w now ms work d).claimed = true
  · obtain ⟨hcard, hres⟩ := phaseImage_claimed_guards w now ms work d hcl
    obtain ⟨hbase, hcase⟩ := hinv
    have hmain : truthy (pyGet d "heroURL") = false ∧ truthy (pyGet d "videoURL") = false
        ∧ flagsClear d
        ∧ (pyGet d "status" = none ∨ pyGet d "status" = some (FVal.s "error_image")) := by
      rcases hcase with hC | hC | hC | hC | hC | hC | hC
      · exact ⟨hC.2.2.1, hC.2.2.2.1, hC.2.2.2.2, Or.inl hC.1⟩
      · simp [hC.2.1] at hcard
      · exact ⟨hC.2.2.1, hC.2.2.2.1, hC.2.2.2.2, Or.inr hC.1⟩
      · simp [hC.2.1] at hcard
      · simp [hC.2.1] at hcard
      · simp [hC.2.1] at hcard
      · simp [hC.2.1] at hcard
    obtain ⟨hhero, hvideo, ⟨hfs, hff⟩, hstat⟩ := hmain
    rw [hres]
    dsimp only
    cases work with
    | ok p =>
      obtain ⟨hu, cu⟩ := p
      obtain ⟨hne1, hne2⟩ := hok hu cu rfl
      obtain ⟨f_st, f_hero, f_card, f_video, f_sent, f_err, f_sending⟩ :=
        imageOk_fields d w now ms hu cu
      constructor
      · refine ⟨⟨lockFree_releaseLock _, ?_, ?_⟩, Or.inr (Or.inl ?_)⟩
        · rw [f_sent, f_err]
          intro hboth
          simp [hfs] at hboth
        · rw [f_sending]
          exact hbase.2.2
        · exact ⟨f_st, by rw [f_card]; exact truthy_s_of_ne hne2,
            by rw [f_hero]; exact truthy_s_of_ne hne1,
            by rw [f_video]; exact hvideo,
            by rw [f_sent]; exact hfs, by rw [f_err]; exact hff⟩
      · rcases hstat with hs | hs
        · exact rankStep_of_ranks d _ 0 2 (by rw [hs]; rfl) (by rw [f_st]; rfl) (by omega)
        · exact rankStep_of_left_none d _ (by rw [hs]; rfl)
    | error msg =>
      obtain ⟨f_st, f_hero, f_card, f_video, f_sent, f_err, f_sending⟩ :=
        imageErr_fields d w now ms msg
      constructor
      · refine ⟨⟨lockFree_releaseLock _, ?_, ?_⟩, Or.inr (Or.inr (Or.inl ?_))⟩
        · rw [f_sent, f_err]
          intro hboth
          simp [hfs] at hboth
        · rw [f_sending]
          exact hbase.2.2
        · exact ⟨f_st, by rw [f_card]; exact hcard, by rw [f_hero]; exact hhero,
            by rw [f_video]; exact hvideo,
            by rw [f_sent]; exact hfs, by rw [f_err]; exact hff⟩
      · exact rankStep_of_right_none d _ (by rw [f_st]; rfl)
  · have hdoc : (phaseImage w now ms work d).doc = d := by
      rcases phaseImage_cases w now ms work d with hres | ⟨d₁, hfalse, hres⟩ | ⟨d₁, hclaim, hres⟩
      · rw [hres]
        rfl
      · rw [hres]
        simpa [claimLostRes] using tryClaim_false_doc hfalse
      · exfalso
        apply hcl
        rw [hres]
    rw [hdoc]
    exact ⟨hinv, rankStep_refl d⟩

theorem video_step_reach (w : String) (now ms : Int)
    (work : Except (String × Option String) String) (d : Doc)
    (hinv : ReachInv d)
    (hok : ∀ vu, work = Except.ok vu → vu ≠ "") :
    ReachInv (phaseVideo w now ms work d).doc
      ∧ rankStep d (phaseVideo w now ms work d).doc := by
  by_cases hcl : (phaseVideo w now ms work d).claimed = true
  · obtain ⟨hhero, hvideo, hg2, hres⟩ := phaseVideo_claimed_guards w now ms work d hcl
    obtain ⟨hbase, hcase⟩ := hinv
    have hmain : truthy (pyGet d "cardURL") = true
        ∧ (pyGet d "status" = some (FVal.s "image_done")
            ∨ pyGet d "status" = some (FVal.s "done")
            ∨ pyGet d "status" = some (FVal.s "error_email")) := by
      rcases hcase with hC | hC | hC | hC | hC | hC | hC
      · simp [hC.2.2.1] at hhero
      · exact ⟨hC.2.1, Or.inl hC.1⟩
      · simp [hC.2.2.1] at hhero
      · simp [hC.2.2.2] at hvideo
      · exact absurd (Or.inl hC.1) hg2
      · exact ⟨hC.2.1, Or.inr (Or.inl hC.1)⟩
      · exact ⟨hC.2.1, Or.inr (Or.inr hC.1)⟩
    obtain ⟨hcard, hstat⟩ := hmain
    rw [hres]
    dsimp only
    cases work with
    | ok vu =>
      have hne := hok vu rfl
      obtain ⟨f_st, f_video, f_card, f_hero, f_sent, f_err, f_sending⟩ :=
        videoOk_fields d w now ms vu
      constructor
      · refine ⟨⟨lockFree_releaseLock _, ?_, ?_⟩, Or.inr (Or.inr (Or.inr (Or.inl ?_)))⟩
        · rw [f_sent, f_err]
          exact hbase.2.1
        · rw [f_sending]
          exact hbase.2.2
        · exact ⟨f_st, by rw [f_card]; exact hcard, by rw [f_hero]; exact hhero,
            by rw [f_video]; exact truthy_s_of_ne hne⟩
      · rcases hstat with hs | hs | hs
        · exact rankStep_of_ranks d _ 2 4 (by rw [hs]; rfl) (by rw [f_st]; rfl) (by omega)
        · exact rankStep_done_exception d _ hs hvideo
        · exact rankStep_of_left_none d _ (by rw [hs]; rfl)
    | error p =>
      obtain ⟨msg, rawUrl⟩ := p
      obtain ⟨f_st, f_video, f_card, f_hero, f_sent, f_err, f_sending⟩ :=
        videoErr_fields d w now ms msg rawUrl
      constructor
      · refine ⟨⟨lockFree_releaseLock _, ?_, ?_⟩,
          Or.inr (Or.inr (Or.inr (Or.inr (Or.inl ?_))))⟩
        · rw [f_sent, f_err]
          exact hbase.2.1
        · rw [f_sending]
          exact hbase.2.2
        · exact ⟨f_st, by rw [f_card]; exact hcard, by rw [f_hero]; exact hhero,
            by rw [f_video]; exact hvideo⟩
      · exact rankStep_of_right_none d _ (by rw [f_st]; rfl)
  · have hdoc : (phaseVideo w now ms work d).doc = d := by
      rcases phaseVideo_cases w now ms work d with hres | ⟨d₁, hfalse, hres⟩ | ⟨d₁, hclaim, hres⟩
      · rw [hres]
        rfl
      · rw [hres]
        simpa [claimLostRes] using tryClaim_false_doc hfalse
      · exfalso
        apply hcl
        rw [hres]
    rw [hdoc]
    exact ⟨hinv, rankStep_refl d⟩

set_option maxHeartbeats 1600000 in
theorem email_step_reach (w : String) (now ms : Int)
    (work : Except String Unit) (d : Doc) (hinv : ReachInv d) :
    ReachInv (phaseEmail w now ms work d).doc
      ∧ rankStep d (phaseEmail w now ms work d).doc := by
  by_cases hcl : (phaseEmail w now ms work d).claimed = true
  · obtain ⟨hemail, hcard, hsent, herr, hres⟩ := phaseEmail_claimed_guards w now ms work d hcl
    obtain ⟨hbase, hcase⟩ := hinv
    have hmain : truthy (pyGet d "heroURL") = true
        ∧ (pyGet d "status" = some (FVal.s "image_done")
            ∨ pyGet d "status" = some (FVal.s "video_done")
            ∨ pyGet d "status" = some (FVal.s "error_video")) := by
      rcases hcase with hC | hC | hC | hC | hC | hC | hC
      · simp [hC.2.1] at hcard
      · exact ⟨hC.2.2.1, Or.inl hC.1⟩
      · simp [hC.2.1] at hcard
      · exact ⟨hC.2.2.1, Or.inr (Or.inl hC.1)⟩
      · exact ⟨hC.2.2.1, Or.inr (Or.inr hC.1)⟩
      · simp [hC.2.2.2] at hsent
      · simp [hC.2.2.2] at herr
    obtain ⟨hhero, hstat⟩ := hmain
    rw [hres]
    dsimp only
    cases work with
    | ok u =>
      obtain ⟨f_st, f_sent, f_err, f_sending, f_card, f_hero, f_video⟩ :=
        emailOk_fields d w now ms
      constructor
      · refine ⟨⟨lockFree_releaseLock _, ?_, ?_⟩,
          Or.inr (Or.inr (Or.inr (Or.inr (Or.inr (Or.inl ?_)))))⟩
        · rw [f_err]
          intro hboth
          simp [truthy, fvTruthy] at hboth
        · rw [f_sending]
          simp [truthy, fvTruthy]
        · exact ⟨f_st, by rw [f_card]; exact hcard, by rw [f_hero]; exact hhero,
            by rw [f_sent]; simp [truthy, fvTruthy]⟩
      · rcases hstat with hs | hs | hs
        · exact rankStep_of_ranks d _ 2 6 (by rw [hs]; rfl) (by rw [f_st]; rfl) (by omega)
        · exact rankStep_of_ranks d _ 4 6 (by rw [hs]; rfl) (by rw [f_st]; rfl) (by omega)
        · exact rankStep_of_left_none d _ (by rw [hs]; rfl)
    | error msg =>
      obtain ⟨f_st, f_sent, f_err, f_sending, f_card, f_hero, f_video⟩ :=
        emailErr_fields d w now ms msg
      constructor
      · refine ⟨⟨lockFree_releaseLock _, ?_, ?_⟩,
          Or.inr (Or.inr (Or.inr (Or.inr (Or.inr (Or.inr ?_)))))⟩
        · rw [f_sent]
          intro hboth
          simp [truthy, fvTruthy] at hboth
        · rw [f_sending]
          simp [truthy, fvTruthy]
        · exact ⟨f_st, by rw [f_card]; exact hcard, by rw [f_hero]; exact hhero,
            by rw [f_err]; simp [truthy, fvTruthy]⟩
      · exact rankStep_of_right_none d _ (by rw [f_st]; rfl)
  · have hdoc : (phaseEmail w now ms work d).doc = d := by
      rcases phaseEmail_cases w now ms work d with hres | ⟨d₁, hfalse, hres⟩ | ⟨d₁, hclaim, hres⟩
      · rw [hres]
        rfl
      · rw [hres]
        simpa [claimLostRes] using emailTxn_false_doc hfalse
      · exfalso
        apply hcl
        rw [hres]
    rw [hdoc]
    exact ⟨hinv, rankStep_refl d⟩

/-- C8, amended: from any state reachable from a fresh work item, a phase
attempt preserves the reachable-state invariant, and among in-order statuses
the status rank never decreases EXCEPT that an item that reached `done`
while its video phase had failed (no `videoURL` recorded) is re-claimed by
the video phase, moving its status back to `processing_video` and then
`video_done`/`error_video`; error statuses sit outside the order and are
exited by the system itself when a phase's preconditions still hold. -/
theorem c8_forward_only_amended (s : Step) (d : Doc)
    (hinv : ReachInv d) (hok : stepOutputsOk s) :
    ReachInv (stepDoc s d) ∧ rankStep d (stepDoc s d) := by
  cases s with
  | image w t ms work =>
    refine image_step_reach w t ms work d hinv ?_
    intro hu cu hw
    subst hw
    exact hok
  | video w t ms work =>
    refine video_step_reach w t ms work d hinv ?_
    intro vu hw
    subst hw
    exact hok
  | email w t ms work =>
    exact email_step_reach w t ms work d hinv

/-- Witness for the amended C8: one successful image attempt on a fresh item
keeps the invariant and moves the rank forward. -/
theorem c8_forward_only_amended_witness :
    ReachInv (stepDoc (Step.image "wA" 5 2 (Except.ok ("https://h", "https://c"))) exFreshDoc)
      ∧ rankStep exFreshDoc
        (stepDoc (Step.image "wA" 5 2 (Except.ok ("https://h", "https://c"))) exFreshDoc) := by
  exact c8_forward_only_amended _ _ (by decide) ⟨by decide, by decide⟩

/-- Counterexample to C8 as stated: after the first dispatch (image
succeeds, video fails, notification succeeds) the item's status is `done`
(rank 6); a second dispatch re-claims the video phase and ends at
`video_done` (rank 4) — the status moved backward in the defined order
without entering an error state. -/
theorem c8_status_regression_counterexample :
    pyGet exAfterDispatch1 "status" = some (FVal.s "done")
    ∧ statusRankF (pyGet exAfterDispatch1 "status") = some 6
    ∧ pyGet exAfterDispatch2 "status" = some (FVal.s "video_done")
    ∧ statusRankF (pyGet exAfterDispatch2 "status") = some 4
    ∧ 4 < 6 := by
  exact ⟨by decide, by decide, by decide, by decide, by decide⟩
